import Mathlib

/-!
Verification of the cscqflairbot flair engine (src/flairbot.py) as a shallow
embedding in Lean.  Python strings are Lean `String`s; the handful of Python
string primitives the bot uses (`split`, `splitlines`, `strip`, `lower`,
`int(...)`) are modelled explicitly below on the character list.  Machine
integers are `Int` (Python ints are unbounded, so no wrap-around modelling is
needed).  Calls that can raise are modelled in `Except String`.
-/

deriving instance DecidableEq for Except

/-- Python `str.split(sep)` worker over the character list. -/
def pySplitGo (sep : Char) : List Char → List Char → List (List Char)
  | [], acc => [acc.reverse]
  | c :: rest, acc =>
    if c = sep then acc.reverse :: pySplitGo sep rest []
    else pySplitGo sep rest (c :: acc)

/-- Python `str.split(sep)` with an explicit single-character separator:
`"a-b".split('-') = ["a","b"]`, `"".split('-') = [""]`, `"a-".split('-') = ["a",""]`. -/
def pySplit (sep : Char) (s : String) : List String :=
  (pySplitGo sep s.data []).map String.mk

/-- Python `str.splitlines()` worker (on `\n` line boundaries). -/
def pySplitlinesGo : List Char → List Char → List (List Char)
  | [], acc => [acc.reverse]
  | c :: rest, acc =>
    if c = '\n' then
      acc.reverse :: (if rest.isEmpty then [] else pySplitlinesGo rest [])
    else pySplitlinesGo rest (c :: acc)

/-- Python `str.splitlines()`: `"".splitlines() = []`, a trailing newline does
not produce a trailing empty line, `"a\nb".splitlines() = ["a","b"]`. -/
def pySplitlines (s : String) : List String :=
  if s.data.isEmpty then [] else (pySplitlinesGo s.data []).map String.mk

/-- Python `str.strip()`: drop whitespace from both ends. -/
def pyStrip (s : String) : String :=
  String.mk (((s.data.dropWhile Char.isWhitespace).reverse.dropWhile Char.isWhitespace).reverse)

/-- Python `str.lower()` (ASCII case folding, as used on the subject lines). -/
def pyLower (s : String) : String :=
  String.mk (s.data.map Char.toLower)

/-- Digit-string parsing worker for `int(...)`. -/
def parseNatDigits : List Char → Nat → Option Nat
  | [], acc => some acc
  | c :: rest, acc =>
    if c.isDigit then parseNatDigits rest (acc * 10 + (c.toNat - 48))
    else none

/-- Python `int(str)`: an optional sign followed by at least one digit
(the bot only ever feeds it '-'-separated label segments). `none` models the
`ValueError` that `int` raises on anything else. -/
def pyInt (s : String) : Option Int :=
  match s.data with
  | [] => none
  | '-' :: rest =>
    if rest.isEmpty then none else (parseNatDigits rest 0).map (fun n => -(n : Int))
  | '+' :: rest =>
    if rest.isEmpty then none else (parseNatDigits rest 0).map (fun n => (n : Int))
  | cs => (parseNatDigits cs 0).map (fun n => (n : Int))

/-- `FlairMapping = namedtuple('FlairMapping', ['karma', 'flair_class'])` -/
structure FlairMapping where
  karma : Int
  flair_class : String
deriving Repr, DecidableEq

/-- `FLAIR_MAPPINGS = sorted([FlairMapping(k, 'over-{}-karma'.format(k)) for k in
(500, 1000, 3000, 5000, 10000, 20000)], key=lambda fm: fm.karma, reverse=True)`;
the generator list is ascending, so the descending sort is its reversal. -/
def FLAIR_MAPPINGS : List FlairMapping :=
  (([500, 1000, 3000, 5000, 10000, 20000] : List Int).map
    (fun k => { karma := k, flair_class := "over-" ++ toString k ++ "-karma" })).reverse

/-- Lines 146-150: first entry of the descending table whose threshold the
karma meets (`for flair in FLAIR_MAPPINGS: if karma >= flair.karma: ... break`),
`none` when the loop finds nothing. -/
def resolve_flair_type (karma : Int) : Option FlairMapping :=
  FLAIR_MAPPINGS.find? (fun flair => decide (flair.karma ≤ karma))

/-- On a descending-sorted table, `find?` with `threshold ≤ score` returns the
entry with the greatest threshold not exceeding the score, and `none` exactly
when the score is below every threshold. -/
theorem find_ge_desc_spec (score : Int) :
    ∀ (l : List FlairMapping), l.Pairwise (fun a b => b.karma ≤ a.karma) →
      ((l.find? (fun fm => decide (fm.karma ≤ score)) = none ↔
          ∀ fm ∈ l, score < fm.karma) ∧
       (∀ t, l.find? (fun fm => decide (fm.karma ≤ score)) = some t →
          t ∈ l ∧ t.karma ≤ score ∧
          ∀ fm ∈ l, fm.karma ≤ score → fm.karma ≤ t.karma)) := by
  intro l
  induction l with
  | nil => intro _; simp
  | cons a tl ih =>
    intro hp
    rw [List.pairwise_cons] at hp
    obtain ⟨ha, htl⟩ := hp
    by_cases hka : a.karma ≤ score
    · rw [List.find?_cons_of_pos _ (by simpa using hka)]
      constructor
      · constructor
        · intro h; exact absurd h (by simp)
        · intro h
          exact absurd (h a (List.mem_cons_self a tl)) (not_lt.mpr hka)
      · intro t ht
        obtain rfl : a = t := by simpa using ht
        refine ⟨List.mem_cons_self a tl, hka, ?_⟩
        intro fm hfm _
        rcases List.mem_cons.mp hfm with h | h
        · exact h ▸ le_refl _
        · exact ha fm h
    · rw [List.find?_cons_of_neg _ (by simpa using hka)]
      obtain ⟨ihnone, ihsome⟩ := ih htl
      constructor
      · rw [ihnone]
        constructor
        · intro h fm hfm
          rcases List.mem_cons.mp hfm with h' | h'
          · exact h' ▸ lt_of_not_le hka
          · exact h fm h'
        · intro h fm hfm; exact h fm (List.mem_cons_of_mem a hfm)
      · intro t ht
        obtain ⟨hmem, hle, hmax⟩ := ihsome t ht
        refine ⟨List.mem_cons_of_mem a hmem, hle, ?_⟩
        intro fm hfm hfmle
        rcases List.mem_cons.mp hfm with h' | h'
        · exact absurd (h' ▸ hfmle) hka
        · exact hmax fm h' hfmle

/-- C2: For every integer score, tier resolution over the descending-sorted
tier table returns the tier with the largest `minimum_score` such that
`minimum_score <= score` (first match in a highest-to-lowest scan), and `none`
when the score — any negative score included — is below every threshold.
`resolve_flair_type` is a pure function, so it has no side effects. -/
theorem flairbot_resolve_spec (score : Int) :
    FLAIR_MAPPINGS.Pairwise (fun a b => b.karma ≤ a.karma) ∧
    (resolve_flair_type score = none ↔ ∀ fm ∈ FLAIR_MAPPINGS, score < fm.karma) ∧
    (∀ t, resolve_flair_type score = some t →
       t ∈ FLAIR_MAPPINGS ∧ t.karma ≤ score ∧
       ∀ fm ∈ FLAIR_MAPPINGS, fm.karma ≤ score → fm.karma ≤ t.karma) := by
  have hdesc : FLAIR_MAPPINGS.Pairwise (fun a b => b.karma ≤ a.karma) := by decide
  obtain ⟨h1, h2⟩ := find_ge_desc_spec score FLAIR_MAPPINGS hdesc
  exact ⟨hdesc, h1, h2⟩

/-! ## Karma aggregation (lines 106-117) -/

/-- One contribution (comment or submission) as the aggregator sees it:
the display name of the subreddit it was made in, and its score. -/
structure Contribution where
  subreddit_display_name : String
  score : Int
deriving Repr, DecidableEq

/-- The listings the external service returns for one redditor: comments and
submissions, each under the 'top' and the 'new' ordering. -/
structure RedditorListings where
  comments_top : List Contribution
  comments_new : List Contribution
  submissions_top : List Contribution
  submissions_new : List Contribution
deriving Repr, DecidableEq

/-- Lines 106-117, `calculate_subreddit_karma`: reject any listing type other
than 'new' or 'top' with a `TypeError` (modelled as `Except.error`), then sum
the scores of the chained comment and submission listings restricted to the
contributions made in `subreddit` (exact string comparison of the display
name).  The accumulator loop mirrors `total_karma += thing.score`. -/
def calculate_subreddit_karma (subreddit : String) (redditor : RedditorListings)
    (listing_type : String) : Except String Int :=
  if listing_type ≠ "new" ∧ listing_type ≠ "top" then
    Except.error ("Unsupported listing type " ++ listing_type)
  else
    let comments := if listing_type = "top" then redditor.comments_top else redditor.comments_new
    let submissions := if listing_type = "top" then redditor.submissions_top else redditor.submissions_new
    Except.ok ((comments ++ submissions).foldl
      (fun total_karma thing =>
        if thing.subreddit_display_name = subreddit then total_karma + thing.score
        else total_karma) 0)

/-- The accumulator loop computes the sum of the scores of the filtered
contributions, shifted by the initial accumulator. -/
theorem karma_foldl_eq_filtered_sum (subreddit : String) :
    ∀ (l : List Contribution) (init : Int),
      l.foldl (fun total_karma thing =>
          if thing.subreddit_display_name = subreddit then total_karma + thing.score
          else total_karma) init =
        init + (((l.filter (fun t => t.subreddit_display_name = subreddit)).map
          (fun t => t.score)).sum) := by
  intro l
  induction l with
  | nil => intro init; simp
  | cons a tl ih =>
    intro init
    by_cases h : a.subreddit_display_name = subreddit
    · simp only [List.foldl_cons, if_pos h, List.filter_cons, ih]
      simp [h, add_assoc]
    · simp only [List.foldl_cons, if_neg h, List.filter_cons, ih]
      simp [h]

/-- C4: For every redditor, supported ordering and list of contributions, the
karma aggregate is the sum of the `score` fields of exactly those
contributions whose subreddit display name is an exact (hence case-sensitive,
since `String` equality distinguishes case) match of the target subreddit.
Scores are `Int`, so the total may be zero or negative.  The function returns
only the total — it performs no writes and no replies. -/
theorem flairbot_karma_is_filtered_sum (subreddit : String)
    (redditor : RedditorListings) (listing_type : String)
    (h : listing_type = "new" ∨ listing_type = "top") :
    calculate_subreddit_karma subreddit redditor listing_type =
      Except.ok
        (((((if listing_type = "top" then redditor.comments_top else redditor.comments_new) ++
            (if listing_type = "top" then redditor.submissions_top else redditor.submissions_new)).filter
          (fun t => t.subreddit_display_name = subreddit)).map (fun t => t.score)).sum) := by
  have hguard : ¬ (listing_type ≠ "new" ∧ listing_type ≠ "top") := by
    rcases h with h | h <;> simp [h]
  rw [calculate_subreddit_karma, if_neg hguard]
  dsimp only
  rw [karma_foldl_eq_filtered_sum, zero_add]

/-- C4 witness: the spec's example — contributions `x:5`, `y:100`, `x:-2`
filtered to community `x` aggregate to `3` — via the theorem at a concrete
redditor whose 'top' comment listing holds those three contributions. -/
theorem flairbot_karma_is_filtered_sum_witness :
    calculate_subreddit_karma "x"
      { comments_top := [⟨"x", 5⟩, ⟨"y", 100⟩, ⟨"x", -2⟩],
        comments_new := [], submissions_top := [], submissions_new := [] }
      "top" = Except.ok 3 := by
  rw [flairbot_karma_is_filtered_sum "x" _ "top" (Or.inr rfl)]
  decide

/-- C6: The aggregator fails (with the `TypeError` of line 110, modelled as
`Except.error`) exactly on the listing types other than 'new' and 'top'; for
the two supported listing types it never errors but returns a total.  There is
no silent default: the result is either the error or a computed total. -/
theorem flairbot_invalid_ordering (subreddit : String)
    (redditor : RedditorListings) (listing_type : String) :
    ((∃ e, calculate_subreddit_karma subreddit redditor listing_type = Except.error e) ↔
      (listing_type ≠ "new" ∧ listing_type ≠ "top")) ∧
    ((∃ v, calculate_subreddit_karma subreddit redditor listing_type = Except.ok v) ↔
      (listing_type = "new" ∨ listing_type = "top")) := by
  by_cases h : listing_type ≠ "new" ∧ listing_type ≠ "top"
  · rw [calculate_subreddit_karma, if_pos h]
    constructor
    · simp only [iff_true_intro h, iff_true]
      exact ⟨_, rfl⟩
    · constructor
      · rintro ⟨v, hv⟩; cases hv
      · intro hor
        rcases hor with h' | h' <;> simp [h'] at h
  · rw [calculate_subreddit_karma, if_neg h]
    constructor
    · constructor
      · rintro ⟨e, he⟩; cases he
      · intro h'; exact absurd h' h
    · constructor
      · intro _
        by_contra hor
        push_neg at hor
        exact h ⟨hor.1, hor.2⟩
      · intro _; exact ⟨_, rfl⟩

/-! ## Winner selection between the two orderings (lines 139-144) -/

/-- Lines 139-144: `if top_karma > new_karma: karma, karma_type = top_karma,
'top' else: karma, karma_type = new_karma, 'new'`. -/
def pickWinningKarma (top_karma new_karma : Int) : Int × String :=
  if top_karma > new_karma then (top_karma, "top") else (new_karma, "new")

/-- C3: The winning aggregate fed to the tier resolver is the maximum of the
two aggregates; its recorded ordering is 'top' exactly when the top aggregate
is strictly greater, and 'new' otherwise — so on a tie 'new' is selected. -/
theorem flairbot_karma_type_tiebreak (top_karma new_karma : Int) :
    (pickWinningKarma top_karma new_karma).1 = max top_karma new_karma ∧
    ((pickWinningKarma top_karma new_karma).2 = "top" ↔ new_karma < top_karma) ∧
    ((pickWinningKarma top_karma new_karma).2 = "new" ↔ top_karma ≤ new_karma) := by
  unfold pickWinningKarma
  by_cases h : new_karma < top_karma
  · rw [if_pos h]
    refine ⟨(max_eq_left (le_of_lt h)).symm, ⟨fun _ => h, fun _ => rfl⟩, ?_⟩
    constructor
    · intro heq; simp at heq
    · intro hle; exact absurd h (not_lt.mpr hle)
  · rw [if_neg h]
    rw [not_lt] at h
    refine ⟨(max_eq_right h).symm, ?_, ⟨fun _ => h, fun _ => rfl⟩⟩
    constructor
    · intro heq; simp at heq
    · intro hlt; exact absurd hlt (not_lt.mpr h)

/-! ## Effects model

The bot's externally visible actions during one batch: replies sent
(`msg.reply`), flair writes (`subreddit.flair.set`) and messages marked read.
Messages are identified by their author here, since both request maps are
keyed by author. -/

/-- One `subreddit.flair.set` call: the user, the css class and the text
written (either may be absent, as the current flair of a user can carry
`None` for both fields). -/
structure FlairWrite where
  user : String
  css_class : Option String
  text : Option String
deriving Repr, DecidableEq

/-- The observable effects of processing (a part of) a batch. -/
structure Effects where
  replies : List (String × String)
  writes : List FlairWrite
  marked_read : List String
deriving Repr, DecidableEq

def emptyEffects : Effects := ⟨[], [], []⟩

def appendEffects (a b : Effects) : Effects :=
  ⟨a.replies ++ b.replies, a.writes ++ b.writes, a.marked_read ++ b.marked_read⟩

/-- Python truthiness of an optional string (`if flair_class:`): `None` and
the empty string are falsy. -/
def pyTruthy : Option String → Bool
  | none => false
  | some s => s ≠ ""

/-- Lines 120-126, `generate_flair_message`. -/
def generate_flair_message (top_karma new_karma : Int) (karma_type msg : String) : String :=
  "Karma by **top posts**: **" ++ toString top_karma ++ "**  \n" ++
  "Karma by **new posts**: **" ++ toString new_karma ++ "**  \n" ++
  "Your highest karma was calculated using **" ++ karma_type ++ " posts**.  \n\n" ++ msg

/-- Line 175: `int(flair_class.split('-')[1])` — indexing raises `IndexError`
when the split has no second element, and `int` raises `ValueError` when the
segment is not an integer literal. -/
def parseCurrentFlairKarmaClass (flair_class : String) : Except String Int :=
  match (pySplit '-' flair_class)[1]? with
  | none => Except.error "IndexError: list index out of range"
  | some seg =>
    match pyInt seg with
    | none => Except.error ("ValueError: invalid literal for int() with base 10: " ++ seg)
    | some n => Except.ok n

/-! ## Score-based flair requests (lines 129-189) -/

/-- One entry of the `flair_requests` map together with the external state the
processing of it consults: the requester, their listings, their current flair
as `sub.flair(redditor=author)` reports it, and whether the external
`sub.flair.set` call of line 187 would raise. -/
structure ScoreRequest where
  author : String
  listings : RedditorListings
  current_css_class : Option String
  current_flair_text : Option String
  flair_set_raises : Bool
deriving Repr, DecidableEq

/-- Lines 184-189 when `set_new_flair` is true: perform the external write
(uncaught exception when it raises), then reply and mark the message read. -/
def setNewFlairStep (r : ScoreRequest) (flair_type : FlairMapping)
    (top_karma new_karma : Int) (karma_type : String) : Except String Effects :=
  if r.flair_set_raises then
    Except.error "RedditAPIException: flair set failed"
  else
    Except.ok ⟨[(r.author, generate_flair_message top_karma new_karma karma_type
          ("Setting new flair for karma level " ++ toString flair_type.karma ++ "+"))],
        [⟨r.author, some flair_type.flair_class, r.current_flair_text⟩],
        [r.author]⟩

/-- Lines 134-189, the body of the `process_flair_requests` loop for one
request: compute both aggregates, pick the winner, resolve the tier, then run
the transition policy against the current flair, replying, writing and marking
read as the source does.  `Except.error` models an exception escaping the loop
(nothing in it is caught). -/
def process_flair_request (subreddit : String) (r : ScoreRequest) : Except String Effects :=
  match calculate_subreddit_karma subreddit r.listings "top" with
  | Except.error e => Except.error e
  | Except.ok top_karma =>
    match calculate_subreddit_karma subreddit r.listings "new" with
    | Except.error e => Except.error e
    | Except.ok new_karma =>
      let karma := (pickWinningKarma top_karma new_karma).1
      let karma_type := (pickWinningKarma top_karma new_karma).2
      match resolve_flair_type karma with
      | none =>
        Except.ok ⟨[(r.author, generate_flair_message top_karma new_karma karma_type
              "Your calculated karma was too low for flair")], [], [r.author]⟩
      | some flair_type =>
        let flair_class := r.current_css_class
        if pyTruthy flair_class then
          let fc := flair_class.getD ""
          if fc = flair_type.flair_class then
            Except.ok ⟨[(r.author, generate_flair_message top_karma new_karma karma_type
                  "Flair class is same as what you have now, so no changes.")], [], [r.author]⟩
          else
            match parseCurrentFlairKarmaClass fc with
            | Except.error e => Except.error e
            | Except.ok current_flair_karma_class =>
              if current_flair_karma_class > flair_type.karma then
                Except.ok ⟨[(r.author, generate_flair_message top_karma new_karma karma_type
                      "New flair would be worse than current flair, so no changes.")], [], [r.author]⟩
              else
                setNewFlairStep r flair_type top_karma new_karma karma_type
        else
          setNewFlairStep r flair_type top_karma new_karma karma_type

/-- The `process_flair_requests` loop over the map: each request's effects
accumulate until an uncaught exception aborts the batch; the second component
is the aborting error, if any.  Requests after an abort contribute nothing. -/
def process_flair_requests (subreddit : String) : List ScoreRequest → Effects × Option String
  | [] => (emptyEffects, none)
  | r :: rest =>
    match process_flair_request subreddit r with
    | Except.error e => (emptyEffects, some e)
    | Except.ok eff =>
      let res := process_flair_requests subreddit rest
      (appendEffects eff res.1, res.2)

/-! ## Text-only flair requests (lines 80-103) -/

/-- One entry of the `flair_text_changes` map with the external state it
consults: the requester, the message body, the current css class the read of
line 82 reports, and whether the `subreddit.flair.set` of line 85 raises. -/
structure TextRequest where
  author : String
  body : String
  current_css_class : Option String
  flair_set_raises : Bool
deriving Repr, DecidableEq

/-- Lines 80-89, `change_flair_text`: read the current flair class, try the
write of `(new_flair_text, flair_class)`; the `except` catches any failure and
returns `False`, otherwise `True`.  Returns the success flag and the effects
of the write. -/
def change_flair_text (r : TextRequest) (new_flair_text : String) : Bool × Effects :=
  if r.flair_set_raises then (false, emptyEffects)
  else (true, ⟨[], [⟨r.author, r.current_css_class, some new_flair_text⟩], []⟩)

/-- Lines 92-103, the body of the `process_flair_text_requests` loop for one
request: `msg.body.splitlines()[0].strip()` (an `IndexError` escapes when the
body has no lines), then `change_flair_text`, then the success or the generic
failure reply, then mark read. -/
def process_flair_text_request (subreddit : String) (r : TextRequest) : Except String Effects :=
  match (pySplitlines r.body)[0]? with
  | none => Except.error "IndexError: list index out of range"
  | some first_line =>
    let flair_text := pyStrip first_line
    let res := change_flair_text r flair_text
    let reply :=
      if res.1 then
        "Flair text changed to: **" ++ flair_text ++ "**. Your flair color has not changed."
      else
        "There was a problem changing your flair text. Try again. If this keeps occurring, please contact the " ++ subreddit ++ " mods"
    Except.ok (appendEffects res.2 ⟨[(r.author, reply)], [], [r.author]⟩)

/-- The `process_flair_text_requests` loop over the map, accumulating effects
until an uncaught exception aborts the batch. -/
def process_flair_text_requests (subreddit : String) : List TextRequest → Effects × Option String
  | [] => (emptyEffects, none)
  | r :: rest =>
    match process_flair_text_request subreddit r with
    | Except.error e => (emptyEffects, some e)
    | Except.ok eff =>
      let res := process_flair_text_requests subreddit rest
      (appendEffects eff res.1, res.2)

/-! ## The transition policy (C1) -/

/-- Inverse-parsing a tier id of the table recovers its threshold:
`int('over-K-karma'.split('-')[1]) = K` for every table entry. -/
theorem parse_tier_label :
    ∀ L ∈ FLAIR_MAPPINGS, parseCurrentFlairKarmaClass L.flair_class = Except.ok L.karma := by
  decide

/-- Every tier id of the table is a nonempty (hence Python-truthy) string. -/
theorem tier_label_ne_empty : ∀ L ∈ FLAIR_MAPPINGS, L.flair_class ≠ "" := by
  decide

/-- C1: the transition policy for a score-based request whose winning karma
resolves to tier `T`.  With a current label that is another tier id `L`:
the numeric rank embedded in `L` is parsed and compared against `T`'s karma
threshold — strictly greater gives the would-downgrade reply with no write,
otherwise `T` is written (class `T.flair_class`, current text preserved).
A current label equal to `T`'s id gives the unchanged reply with no write;
a `None`/empty current label gives the write of `T`. -/
theorem flairbot_transition_policy (subreddit : String) (r : ScoreRequest)
    (top_karma new_karma : Int) (T : FlairMapping)
    (h1 : calculate_subreddit_karma subreddit r.listings "top" = Except.ok top_karma)
    (h2 : calculate_subreddit_karma subreddit r.listings "new" = Except.ok new_karma)
    (hT : resolve_flair_type (pickWinningKarma top_karma new_karma).1 = some T) :
    (∀ L ∈ FLAIR_MAPPINGS, r.current_css_class = some L.flair_class →
       L.flair_class ≠ T.flair_class →
       ((T.karma < L.karma →
          process_flair_request subreddit r = Except.ok
            ⟨[(r.author, generate_flair_message top_karma new_karma
                (pickWinningKarma top_karma new_karma).2
                "New flair would be worse than current flair, so no changes.")], [], [r.author]⟩) ∧
        (L.karma ≤ T.karma → r.flair_set_raises = false →
          process_flair_request subreddit r = Except.ok
            ⟨[(r.author, generate_flair_message top_karma new_karma
                (pickWinningKarma top_karma new_karma).2
                ("Setting new flair for karma level " ++ toString T.karma ++ "+"))],
             [⟨r.author, some T.flair_class, r.current_flair_text⟩], [r.author]⟩))) ∧
    (r.current_css_class = some T.flair_class →
       process_flair_request subreddit r = Except.ok
         ⟨[(r.author, generate_flair_message top_karma new_karma
             (pickWinningKarma top_karma new_karma).2
             "Flair class is same as what you have now, so no changes.")], [], [r.author]⟩) ∧
    ((r.current_css_class = none ∨ r.current_css_class = some "") →
       r.flair_set_raises = false →
       process_flair_request subreddit r = Except.ok
         ⟨[(r.author, generate_flair_message top_karma new_karma
             (pickWinningKarma top_karma new_karma).2
             ("Setting new flair for karma level " ++ toString T.karma ++ "+"))],
          [⟨r.author, some T.flair_class, r.current_flair_text⟩], [r.author]⟩) := by
  have hTmem : T ∈ FLAIR_MAPPINGS := List.mem_of_find?_eq_some hT
  have hTne : T.flair_class ≠ "" := tier_label_ne_empty T hTmem
  refine ⟨?_, ?_, ?_⟩
  · intro L hLmem hLcur hLne
    have hLne' : L.flair_class ≠ "" := tier_label_ne_empty L hLmem
    have hparse := parse_tier_label L hLmem
    constructor
    · intro hlt
      have hgt : L.karma > T.karma := hlt
      simp [process_flair_request, h1, h2, hT, hLcur, pyTruthy, hLne', hLne, hparse, hgt]
    · intro hle hset
      have hngt : ¬ (L.karma > T.karma) := not_lt.mpr hle
      simp [process_flair_request, h1, h2, hT, hLcur, pyTruthy, hLne', hLne, hparse, hngt,
        setNewFlairStep, hset]
  · intro hcur
    simp [process_flair_request, h1, h2, hT, hcur, pyTruthy, hTne]
  · intro hcur hset
    rcases hcur with hcur | hcur <;>
      simp [process_flair_request, h1, h2, hT, hcur, pyTruthy, setNewFlairStep, hset]

/-- C1 witness: karma 600 by both orderings (tie, so 'new' wins), resolving to
the over-500 tier, against current label `over-1000-karma`: the parsed rank
1000 exceeds the threshold 500, so the outcome is the would-downgrade reply
and no write. -/
theorem flairbot_transition_policy_witness :
    process_flair_request "cscareerquestions"
      { author := "alice",
        listings := { comments_top := [⟨"cscareerquestions", 600⟩], comments_new := [],
                      submissions_top := [], submissions_new := [⟨"cscareerquestions", 600⟩] },
        current_css_class := some "over-1000-karma",
        current_flair_text := some "software engineer",
        flair_set_raises := false } = Except.ok
      ⟨[("alice", generate_flair_message 600 600 "new"
          "New flair would be worse than current flair, so no changes.")], [], ["alice"]⟩ := by
  have h := flairbot_transition_policy "cscareerquestions"
    { author := "alice",
      listings := { comments_top := [⟨"cscareerquestions", 600⟩], comments_new := [],
                    submissions_top := [], submissions_new := [⟨"cscareerquestions", 600⟩] },
      current_css_class := some "over-1000-karma",
      current_flair_text := some "software engineer",
      flair_set_raises := false }
    600 600 ⟨500, "over-500-karma"⟩ (by decide) (by decide) (by decide)
  have h2 := (h.1 ⟨1000, "over-1000-karma"⟩ (by decide) rfl (by decide)).1 (by decide)
  simpa [pickWinningKarma] using h2

/-! ## Splitlines facts (C9) and write-failure behaviour (C5) -/

/-- The splitlines worker never returns an empty list of lines. -/
theorem pySplitlinesGo_ne_nil : ∀ (cs acc : List Char), pySplitlinesGo cs acc ≠ [] := by
  intro cs
  induction cs with
  | nil => intro acc; simp [pySplitlinesGo]
  | cons c rest ih =>
    intro acc
    by_cases h : c = '\n'
    · simp [pySplitlinesGo, h]
    · simp only [pySplitlinesGo, if_neg h]
      exact ih _

/-- Every non-empty string has a first line. -/
theorem pySplitlines_nonempty (s : String) (h : s ≠ "") :
    ∃ l ls, pySplitlines s = l :: ls := by
  have hd : ¬ s.data.isEmpty := by
    intro hnil
    apply h
    cases s with
    | mk data =>
      simp only [String.data] at hnil
      rw [List.isEmpty_iff] at hnil
      simp [hnil]
  rw [pySplitlines, if_neg hd]
  rcases hgo : pySplitlinesGo s.data [] with _ | ⟨l, ls⟩
  · exact absurd hgo (pySplitlinesGo_ne_nil _ _)
  · exact ⟨String.mk l, ls.map String.mk, by simp [hgo]⟩

/-- C9: A text-only request whose payload is the empty string makes
`splitlines` return no lines, so indexing the first line raises an uncaught
`IndexError` that aborts the batch — no request of the batch contributes any
effect; for every non-empty payload a first line exists, so the extraction
succeeds. -/
theorem flairbot_empty_body_aborts (subreddit : String) (r : TextRequest)
    (rest : List TextRequest) (h : r.body = "") :
    process_flair_text_request subreddit r =
      Except.error "IndexError: list index out of range" ∧
    process_flair_text_requests subreddit (r :: rest) =
      (emptyEffects, some "IndexError: list index out of range") ∧
    (∀ s : String, s ≠ "" → ∃ l ls, pySplitlines s = l :: ls) := by
  have h0 : process_flair_text_request subreddit r =
      Except.error "IndexError: list index out of range" := by
    simp [process_flair_text_request, h, pySplitlines]
  refine ⟨h0, ?_, fun s hs => pySplitlines_nonempty s hs⟩
  simp [process_flair_text_requests, h0]

/-- C9 witness: a batch of an empty-body request followed by a well-formed one
aborts with the `IndexError` and the second request is never processed. -/
theorem flairbot_empty_body_aborts_witness :
    process_flair_text_requests "cscareerquestions"
      [⟨"bob", "", none, false⟩, ⟨"carol", "Engineer", none, false⟩] =
      (emptyEffects, some "IndexError: list index out of range") :=
  (flairbot_empty_body_aborts "cscareerquestions" ⟨"bob", "", none, false⟩
    [⟨"carol", "Engineer", none, false⟩] rfl).2.1

/-- C7: For every text-only request, the write performed is
`(class := the class read from the current flair, unchanged;
text := the first line of the payload, stripped)`, together with the success
reply and the mark-read of the message. -/
theorem flairbot_text_only_change (subreddit : String) (r : TextRequest)
    (line : String) (rest : List String)
    (h : pySplitlines r.body = line :: rest) (hs : r.flair_set_raises = false) :
    process_flair_text_request subreddit r = Except.ok
      ⟨[(r.author, "Flair text changed to: **" ++ pyStrip line ++ "**. Your flair color has not changed.")],
       [⟨r.author, r.current_css_class, some (pyStrip line)⟩], [r.author]⟩ := by
  simp [process_flair_text_request, h, change_flair_text, hs, appendEffects]

/-- C7 witness: body `"Senior Engineer\nextra ignored line"` writes display
text exactly `"Senior Engineer"` with the existing class `over-500-karma`
kept. -/
theorem flairbot_text_only_change_witness :
    process_flair_text_request "cscareerquestions"
      ⟨"dave", "Senior Engineer\nextra ignored line", some "over-500-karma", false⟩ = Except.ok
      ⟨[("dave", "Flair text changed to: **Senior Engineer**. Your flair color has not changed.")],
       [⟨"dave", some "over-500-karma", some "Senior Engineer"⟩], ["dave"]⟩ := by
  rw [flairbot_text_only_change "cscareerquestions"
    ⟨"dave", "Senior Engineer\nextra ignored line", some "over-500-karma", false⟩
    "Senior Engineer" ["extra ignored line"] (by decide) rfl]
  decide

/-- C5 counterexample: a batch of two score-based requests in which the first
user's external flair write raises.  The write of line 187 is not inside any
`try`, so the exception aborts the batch: no generic retry reply is sent to
the first user, and the second user — whose request would have succeeded — is
never processed at all. -/
theorem flairbot_score_write_abort_cex :
    process_flair_requests "cscareerquestions"
      [⟨"erin", ⟨[⟨"cscareerquestions", 600⟩], [], [], []⟩, none, none, true⟩,
       ⟨"frank", ⟨[⟨"cscareerquestions", 700⟩], [], [], []⟩, none, none, false⟩] =
      (emptyEffects, some "RedditAPIException: flair set failed") := by
  decide

/-- C5 amended: only the text-only write (`change_flair_text`, lines 83-88) is
guarded.  A failing text-only write is caught, answered with the generic
retry-later reply, performs no write, and the rest of the batch is still
processed; a failing score-based class write (line 187) is uncaught and aborts
the batch with nothing further processed. -/
theorem flairbot_write_failure_amended (subreddit : String)
    (t : TextRequest) (trest : List TextRequest)
    (ht : t.flair_set_raises = true) (hb : t.body ≠ "") :
    (process_flair_text_request subreddit t = Except.ok
       ⟨[(t.author, "There was a problem changing your flair text. Try again. If this keeps occurring, please contact the " ++ subreddit ++ " mods")],
        [], [t.author]⟩) ∧
    ((process_flair_text_requests subreddit (t :: trest)).2 =
       (process_flair_text_requests subreddit trest).2) ∧
    ((process_flair_text_requests subreddit (t :: trest)).1.replies =
       (t.author, "There was a problem changing your flair text. Try again. If this keeps occurring, please contact the " ++ subreddit ++ " mods") ::
         (process_flair_text_requests subreddit trest).1.replies) ∧
    (∀ (s : ScoreRequest) (srest : List ScoreRequest) (e : String),
       process_flair_request subreddit s = Except.error e →
       process_flair_requests subreddit (s :: srest) = (emptyEffects, some e)) := by
  obtain ⟨l, ls, hl⟩ := pySplitlines_nonempty t.body hb
  have h0 : process_flair_text_request subreddit t = Except.ok
      ⟨[(t.author, "There was a problem changing your flair text. Try again. If this keeps occurring, please contact the " ++ subreddit ++ " mods")],
       [], [t.author]⟩ := by
    simp [process_flair_text_request, hl, change_flair_text, ht, appendEffects, emptyEffects]
  refine ⟨h0, ?_, ?_, ?_⟩
  · simp [process_flair_text_requests, h0]
  · simp [process_flair_text_requests, h0, appendEffects]
  · intro s srest e hs
    simp [process_flair_requests, hs]

/-- C5 amended witness: a failing text-only write for one user is answered
with the generic retry reply and performs no write. -/
theorem flairbot_write_failure_amended_witness :
    process_flair_text_request "cscareerquestions"
      ⟨"gina", "new flair text", some "over-500-karma", true⟩ = Except.ok
      ⟨[("gina", "There was a problem changing your flair text. Try again. If this keeps occurring, please contact the cscareerquestions mods")],
       [], ["gina"]⟩ := by
  have h := flairbot_write_failure_amended "cscareerquestions"
    ⟨"gina", "new flair text", some "over-500-karma", true⟩ [] rfl (by decide)
  exact h.1

/-! ## The downgrade-guard label parse (C10) -/

/-- The split worker produces one more segment than there are separators. -/
theorem pySplitGo_length (sep : Char) :
    ∀ (cs acc : List Char), (pySplitGo sep cs acc).length = cs.count sep + 1 := by
  intro cs
  induction cs with
  | nil => intro acc; simp [pySplitGo]
  | cons c rest ih =>
    intro acc
    by_cases h : c = sep
    · simp [pySplitGo, h, ih, List.count_cons]
    · simp [pySplitGo, h, ih, List.count_cons]

/-- `s.split(sep)` has a second element exactly when `s` contains the
separator at least once. -/
theorem pySplit_second_iff (sep : Char) (s : String) :
    (pySplit sep s)[1]?.isSome ↔ sep ∈ s.data := by
  have hlen : (pySplit sep s).length = s.data.count sep + 1 := by
    simp [pySplit, pySplitGo_length]
  constructor
  · intro h
    rcases ho : (pySplit sep s)[1]? with _ | v
    · rw [ho] at h; simp at h
    · have hnle : ¬ ((pySplit sep s).length ≤ 1) := by
        intro hle
        rw [← List.getElem?_eq_none_iff] at hle
        rw [hle] at ho
        cases ho
      rw [hlen] at hnle
      have hc : 0 < s.data.count sep := by omega
      exact List.count_pos_iff.mp hc
  · intro h
    have hc : 0 < s.data.count sep := List.count_pos_iff.mpr h
    have hlt : 1 < (pySplit sep s).length := by omega
    rw [List.getElem?_eq_getElem hlt]
    rfl

/-- C10 amended: the parse of line 175 is defined exactly when the current
label contains at least one '-' (so indexing the second segment succeeds) and
that second segment is an integer literal — which holds for every tier id
`over-<integer>-karma` but also for other labels such as `over-500`; when it
is undefined (no '-' at all, or an unparsable second segment) the error is
uncaught and aborts the whole batch with no request contributing any
effect. -/
theorem flairbot_parse_guard_amended (fc : String) :
    ((pySplit '-' fc)[1]?.isSome ↔ '-' ∈ fc.data) ∧
    ((∃ n, parseCurrentFlairKarmaClass fc = Except.ok n) ↔
       (∃ seg, (pySplit '-' fc)[1]? = some seg ∧ (pyInt seg).isSome)) ∧
    (∀ e, parseCurrentFlairKarmaClass fc = Except.error e →
       ∀ (subreddit : String) (r : ScoreRequest) (rest : List ScoreRequest)
         (top_karma new_karma : Int) (T : FlairMapping),
         calculate_subreddit_karma subreddit r.listings "top" = Except.ok top_karma →
         calculate_subreddit_karma subreddit r.listings "new" = Except.ok new_karma →
         resolve_flair_type (pickWinningKarma top_karma new_karma).1 = some T →
         r.current_css_class = some fc → fc ≠ "" → fc ≠ T.flair_class →
         process_flair_requests subreddit (r :: rest) = (emptyEffects, some e)) := by
  refine ⟨pySplit_second_iff '-' fc, ?_, ?_⟩
  · constructor
    · rintro ⟨n, hn⟩
      rcases hg : (pySplit '-' fc)[1]? with _ | seg
      · simp [parseCurrentFlairKarmaClass, hg] at hn
      · rcases hi : pyInt seg with _ | v
        · simp [parseCurrentFlairKarmaClass, hg, hi] at hn
        · exact ⟨seg, rfl, by rw [hi]; rfl⟩
    · rintro ⟨seg, hseg, hsome⟩
      rcases hi : pyInt seg with _ | v
      · rw [hi] at hsome; simp at hsome
      · exact ⟨v, by simp [parseCurrentFlairKarmaClass, hseg, hi]⟩
  · intro e he subreddit r rest top_karma new_karma T h1 h2 hT hcur hne hneT
    have hone : process_flair_request subreddit r = Except.error e := by
      simp [process_flair_request, h1, h2, hT, hcur, pyTruthy, hne, hneT, he]
    simp [process_flair_requests, hone]

/-- C10 amended witness: the externally set custom class `custom-flair-text`
has a second segment `flair` that is not an integer, so a request by a user
holding it aborts the batch with the `ValueError`. -/
theorem flairbot_parse_guard_amended_witness :
    process_flair_requests "cscareerquestions"
      [⟨"judy", ⟨[⟨"cscareerquestions", 600⟩], [], [], []⟩, some "custom-flair-text", none, false⟩] =
      (emptyEffects, some "ValueError: invalid literal for int() with base 10: flair") := by
  have h := (flairbot_parse_guard_amended "custom-flair-text").2.2
    "ValueError: invalid literal for int() with base 10: flair" (by decide)
    "cscareerquestions"
    ⟨"judy", ⟨[⟨"cscareerquestions", 600⟩], [], [], []⟩, some "custom-flair-text", none, false⟩
    [] 600 0 ⟨500, "over-500-karma"⟩ (by decide) (by decide) (by decide) rfl (by decide) (by decide)
  exact h

set_option maxRecDepth 16384 in
/-- C10 counterexample: the claim says the parse fails for every label with
fewer than two '-' separators, but the label `over-500` has exactly one
separator, parses to 500, and a score-based request by a user holding it with
winning karma 600 completes normally — the over-500-karma tier is written and
the batch is not aborted. -/
theorem flairbot_parse_guard_cex :
    (pySplit '-' "over-500").length = 2 ∧
    parseCurrentFlairKarmaClass "over-500" = Except.ok 500 ∧
    process_flair_request "cscareerquestions"
      ⟨"ivan", ⟨[⟨"cscareerquestions", 600⟩], [], [], []⟩, some "over-500", none, false⟩ =
      Except.ok ⟨[("ivan", generate_flair_message 600 0 "top" "Setting new flair for karma level 500+")],
        [⟨"ivan", some "over-500-karma", none⟩], ["ivan"]⟩ := by
  decide

/-! ## Request classification (lines 48-70, C8) -/

/-- One inbound private message: author (`none` models PMs without an author
object, like mod invites), subject and body. -/
structure Message where
  author : Option String
  subject : String
  body : String
deriving Repr, DecidableEq

/-- The state the `check_pms` loop builds: the two author-keyed request maps
(as insertion-ordered association lists) and the ignored messages that are
batch-marked read with no reply. -/
structure ClassifyResult where
  flair_requests : List (String × Message)
  flair_text_changes : List (String × Message)
  ignored_messages : List Message
deriving Repr, DecidableEq

/-- `msg.subject.strip().lower()`. -/
def normSubject (msg : Message) : String := pyLower (pyStrip msg.subject)

/-- Dictionary membership/lookup on the author-keyed association lists
(`author not in flair_requests` is `dictLookup author ... = none`). -/
def dictLookup {β : Type} (a : String) : List (String × β) → Option β
  | [] => none
  | (k, b) :: es => if a = k then some b else dictLookup a es

/-- One iteration of the `check_pms` loop (lines 54-69): authorless messages
are ignored; a first 'flair me' per author joins `flair_requests`; otherwise a
first 'change flair text' per author joins `flair_text_changes`; everything
else — unrecognized subjects and same-batch duplicates — is ignored. -/
def classifyStep (st : ClassifyResult) (msg : Message) : ClassifyResult :=
  match msg.author with
  | none => { st with ignored_messages := st.ignored_messages ++ [msg] }
  | some author =>
    if normSubject msg = "flair me" ∧ dictLookup author st.flair_requests = none then
      { st with flair_requests := st.flair_requests ++ [(author, msg)] }
    else if normSubject msg = "change flair text" ∧ dictLookup author st.flair_text_changes = none then
      { st with flair_text_changes := st.flair_text_changes ++ [(author, msg)] }
    else
      { st with ignored_messages := st.ignored_messages ++ [msg] }

/-- Lines 51-70 of `check_pms`: fold the classification over the unread
inbox.  The resulting `ignored_messages` are exactly the messages passed to
the single batch `mark_read` call of line 70; no reply is ever produced
here. -/
def check_pms_classify (msgs : List Message) : ClassifyResult :=
  msgs.foldl classifyStep ⟨[], [], []⟩

/-- Looking a key up after appending one binding: the old binding wins. -/
theorem dictLookup_append_one {β : Type} (l : List (String × β)) (a k : String) (m : β) :
    dictLookup a (l ++ [(k, m)]) = ((dictLookup a l).or (if a = k then some m else none)) := by
  induction l with
  | nil =>
    by_cases h : a = k
    · simp [dictLookup, h]
    · simp [dictLookup, h]
  | cons p tl ih =>
    rcases p with ⟨k', b⟩
    by_cases h : a = k'
    · simp [dictLookup, h]
    · simp only [List.cons_append, dictLookup, if_neg h]
      exact ih

/-- The classification predicate: message `m` is a request with subject
`subject` (after strip+lower) by author `a`. -/
def isRequestFor (subject a : String) (m : Message) : Bool :=
  decide (m.author = some a ∧ normSubject m = subject)

/-- Folding the classification: the `flair_requests` binding of an author is
the binding it already had, or else the first 'flair me' message by that
author among the remaining messages. -/
theorem classify_fold_lookup_flair (a : String) :
    ∀ (msgs : List Message) (st : ClassifyResult),
      dictLookup a (msgs.foldl classifyStep st).flair_requests =
        (dictLookup a st.flair_requests).or
          (msgs.find? (isRequestFor "flair me" a)) := by
  intro msgs
  induction msgs with
  | nil => intro st; simp [Option.or_none]
  | cons m rest ih =>
    intro st
    rw [List.foldl_cons]
    rcases hau : m.author with _ | b
    · have hstep : classifyStep st m =
          { st with ignored_messages := st.ignored_messages ++ [m] } := by
        simp [classifyStep, hau]
      have hpred : ¬ isRequestFor "flair me" a m = true := by
        simp [isRequestFor, hau]
      rw [hstep, List.find?_cons_of_neg _ hpred]
      exact ih _
    · by_cases h1 : normSubject m = "flair me" ∧ dictLookup b st.flair_requests = none
      · have hstep : classifyStep st m =
            { st with flair_requests := st.flair_requests ++ [(b, m)] } := by
          simp [classifyStep, hau, h1.1, h1.2]
        rw [hstep]
        by_cases hab : a = b
        · have hpred : isRequestFor "flair me" a m = true := by
            simp [isRequestFor, hau, hab, h1.1]
          rw [List.find?_cons_of_pos _ hpred, ih]
          subst hab
          rw [dictLookup_append_one, h1.2, if_pos rfl]
          simp [Option.or]
        · have hpred : ¬ isRequestFor "flair me" a m = true := by
            simp [isRequestFor, hau]
            intro he
            exact absurd he.symm hab
          rw [List.find?_cons_of_neg _ hpred, ih]
          rw [dictLookup_append_one, if_neg hab, Option.or_none]
      · have hpred : ¬ isRequestFor "flair me" a m = true ∨
            (a = b ∧ normSubject m = "flair me" ∧ dictLookup b st.flair_requests ≠ none) := by
          by_cases hsub : normSubject m = "flair me"
          · by_cases hab : a = b
            · right
              refine ⟨hab, hsub, ?_⟩
              intro hnone
              exact h1 ⟨hsub, hnone⟩
            · left
              simp [isRequestFor, hau]
              intro he
              exact absurd he.symm hab
          · left
            simp [isRequestFor, hsub]
        have hfr : (classifyStep st m).flair_requests = st.flair_requests := by
          by_cases h2 : normSubject m = "change flair text" ∧
              dictLookup b st.flair_text_changes = none
          · simp [classifyStep, hau, h1, h2]
          · simp [classifyStep, hau, h1, h2]
        rcases hpred with hpred | ⟨hab, hsub, hne⟩
        · rw [List.find?_cons_of_neg _ hpred]
          rw [ih, hfr]
        · have hpred2 : isRequestFor "flair me" a m = true := by
            simp [isRequestFor, hau, hab, hsub]
          rw [List.find?_cons_of_pos _ hpred2, ih, hfr]
          subst hab
          rcases hl : dictLookup a st.flair_requests with _ | x
          · exact absurd hl hne
          · simp [Option.or]

/-- Folding the classification: the `flair_text_changes` binding of an author
is the binding it already had, or else the first 'change flair text' message
by that author among the remaining messages. -/
theorem classify_fold_lookup_text (a : String) :
    ∀ (msgs : List Message) (st : ClassifyResult),
      dictLookup a (msgs.foldl classifyStep st).flair_text_changes =
        (dictLookup a st.flair_text_changes).or
          (msgs.find? (isRequestFor "change flair text" a)) := by
  intro msgs
  induction msgs with
  | nil => intro st; simp [Option.or_none]
  | cons m rest ih =>
    intro st
    rw [List.foldl_cons]
    rcases hau : m.author with _ | b
    · have hstep : classifyStep st m =
          { st with ignored_messages := st.ignored_messages ++ [m] } := by
        simp [classifyStep, hau]
      have hpred : ¬ isRequestFor "change flair text" a m = true := by
        simp [isRequestFor, hau]
      rw [hstep, List.find?_cons_of_neg _ hpred]
      exact ih _
    · by_cases h1 : normSubject m = "flair me" ∧ dictLookup b st.flair_requests = none
      · have hstep : classifyStep st m =
            { st with flair_requests := st.flair_requests ++ [(b, m)] } := by
          simp [classifyStep, hau, h1.1, h1.2]
        have hpred : ¬ isRequestFor "change flair text" a m = true := by
          simp [isRequestFor, h1.1]
        rw [hstep, List.find?_cons_of_neg _ hpred]
        exact ih _
      · by_cases h2 : normSubject m = "change flair text" ∧
            dictLookup b st.flair_text_changes = none
        · have hstep : classifyStep st m =
              { st with flair_text_changes := st.flair_text_changes ++ [(b, m)] } := by
            simp [classifyStep, hau, h1, h2.1, h2.2]
          rw [hstep]
          by_cases hab : a = b
          · have hpred : isRequestFor "change flair text" a m = true := by
              simp [isRequestFor, hau, hab, h2.1]
            rw [List.find?_cons_of_pos _ hpred, ih]
            subst hab
            rw [dictLookup_append_one, h2.2, if_pos rfl]
            simp [Option.or]
          · have hpred : ¬ isRequestFor "change flair text" a m = true := by
              simp [isRequestFor, hau]
              intro he
              exact absurd he.symm hab
            rw [List.find?_cons_of_neg _ hpred, ih]
            rw [dictLookup_append_one, if_neg hab, Option.or_none]
        · have hpred : ¬ isRequestFor "change flair text" a m = true ∨
              (a = b ∧ normSubject m = "change flair text" ∧
                dictLookup b st.flair_text_changes ≠ none) := by
            by_cases hsub : normSubject m = "change flair text"
            · by_cases hab : a = b
              · right
                refine ⟨hab, hsub, ?_⟩
                intro hnone
                exact h2 ⟨hsub, hnone⟩
              · left
                simp [isRequestFor, hau]
                intro he
                exact absurd he.symm hab
            · left
              simp [isRequestFor, hsub]
          have hfr : (classifyStep st m).flair_text_changes = st.flair_text_changes := by
            simp [classifyStep, hau, h1, h2]
          rcases hpred with hpred | ⟨hab, hsub, hne⟩
          · rw [List.find?_cons_of_neg _ hpred]
            rw [ih, hfr]
          · have hpred2 : isRequestFor "change flair text" a m = true := by
              simp [isRequestFor, hau, hab, hsub]
            rw [List.find?_cons_of_pos _ hpred2, ih, hfr]
            subst hab
            rcases hl : dictLookup a st.flair_text_changes with _ | x
            · exact absurd hl hne
            · simp [Option.or]

/-- A classification step never removes a message from the ignored list. -/
theorem classifyStep_ignored_mono (st : ClassifyResult) (x m : Message)
    (hm : m ∈ st.ignored_messages) : m ∈ (classifyStep st x).ignored_messages := by
  rcases hau : x.author with _ | b
  · simp only [classifyStep, hau]
    exact List.mem_append_left _ hm
  · by_cases h1 : normSubject x = "flair me" ∧ dictLookup b st.flair_requests = none
    · simp only [classifyStep, hau, if_pos h1]
      exact hm
    · by_cases h2 : normSubject x = "change flair text" ∧
          dictLookup b st.flair_text_changes = none
      · simp only [classifyStep, hau, if_neg h1, if_pos h2]
        exact hm
      · simp only [classifyStep, hau, if_neg h1, if_neg h2]
        exact List.mem_append_left _ hm

/-- Folding the classification never removes a message from the ignored
list. -/
theorem classify_fold_ignored_mono :
    ∀ (msgs : List Message) (st : ClassifyResult) (m : Message),
      m ∈ st.ignored_messages → m ∈ (msgs.foldl classifyStep st).ignored_messages := by
  intro msgs
  induction msgs with
  | nil => intro st m hm; exact hm
  | cons x rest ih =>
    intro st m hm
    rw [List.foldl_cons]
    exact ih _ m (classifyStep_ignored_mono st x m hm)

/-- Once an author has a `flair_requests` binding, every further 'flair me'
message by that author in the batch ends up ignored. -/
theorem classify_fold_dup_flair (a : String) :
    ∀ (msgs : List Message) (st : ClassifyResult),
      dictLookup a st.flair_requests ≠ none →
      ∀ m ∈ msgs, isRequestFor "flair me" a m = true →
        m ∈ (msgs.foldl classifyStep st).ignored_messages := by
  intro msgs
  induction msgs with
  | nil => intro st _ m hm; cases hm
  | cons x rest ih =>
    intro st hsome m hm hpred
    rw [List.foldl_cons]
    have hsome' : dictLookup a (classifyStep st x).flair_requests ≠ none := by
      rcases hau : x.author with _ | b
      · simpa [classifyStep, hau] using hsome
      · by_cases h1 : normSubject x = "flair me" ∧ dictLookup b st.flair_requests = none
        · simp only [classifyStep, hau, if_pos h1]
          rw [dictLookup_append_one]
          rcases hl : dictLookup a st.flair_requests with _ | y
          · exact absurd hl hsome
          · simp [Option.or]
        · by_cases h2 : normSubject x = "change flair text" ∧
              dictLookup b st.flair_text_changes = none
          · simpa [classifyStep, hau, if_neg h1, if_pos h2] using hsome
          · simpa [classifyStep, hau, if_neg h1, if_neg h2] using hsome
    rcases List.mem_cons.mp hm with rfl | hm'
    · have hma : m.author = some a ∧ normSubject m = "flair me" := by
        simpa [isRequestFor] using hpred
      have hstep : (classifyStep st m).ignored_messages = st.ignored_messages ++ [m] := by
        have h1 : ¬ (normSubject m = "flair me" ∧ dictLookup a st.flair_requests = none) := by
          intro h
          exact hsome h.2
        have h2 : ¬ (normSubject m = "change flair text" ∧
            dictLookup a st.flair_text_changes = none) := by
          intro h
          rw [hma.2] at h
          exact absurd h.1 (by decide)
        simp [classifyStep, hma.1, h1, h2]
      apply classify_fold_ignored_mono rest _ m
      rw [hstep]
      exact List.mem_append_right _ (List.mem_singleton.mpr rfl)
    · exact ih _ hsome' m hm' hpred

/-- Once an author has a `flair_text_changes` binding, every further 'change
flair text' message by that author in the batch ends up ignored. -/
theorem classify_fold_dup_text (a : String) :
    ∀ (msgs : List Message) (st : ClassifyResult),
      dictLookup a st.flair_text_changes ≠ none →
      ∀ m ∈ msgs, isRequestFor "change flair text" a m = true →
        m ∈ (msgs.foldl classifyStep st).ignored_messages := by
  intro msgs
  induction msgs with
  | nil => intro st _ m hm; cases hm
  | cons x rest ih =>
    intro st hsome m hm hpred
    rw [List.foldl_cons]
    have hsome' : dictLookup a (classifyStep st x).flair_text_changes ≠ none := by
      rcases hau : x.author with _ | b
      · simpa [classifyStep, hau] using hsome
      · by_cases h1 : normSubject x = "flair me" ∧ dictLookup b st.flair_requests = none
        · simpa [classifyStep, hau, if_pos h1] using hsome
        · by_cases h2 : normSubject x = "change flair text" ∧
              dictLookup b st.flair_text_changes = none
          · simp only [classifyStep, hau, if_neg h1, if_pos h2]
            rw [dictLookup_append_one]
            rcases hl : dictLookup a st.flair_text_changes with _ | y
            · exact absurd hl hsome
            · simp [Option.or]
          · simpa [classifyStep, hau, if_neg h1, if_neg h2] using hsome
    rcases List.mem_cons.mp hm with rfl | hm'
    · have hma : m.author = some a ∧ normSubject m = "change flair text" := by
        simpa [isRequestFor] using hpred
      have hstep : (classifyStep st m).ignored_messages = st.ignored_messages ++ [m] := by
        have h1 : ¬ (normSubject m = "flair me" ∧ dictLookup a st.flair_requests = none) := by
          intro h
          rw [hma.2] at h
          exact absurd h.1 (by decide)
        have h2 : ¬ (normSubject m = "change flair text" ∧
            dictLookup a st.flair_text_changes = none) := by
          intro h
          exact hsome h.2
        simp [classifyStep, hma.1, h1, h2]
      apply classify_fold_ignored_mono rest _ m
      rw [hstep]
      exact List.mem_append_right _ (List.mem_singleton.mpr rfl)
    · exact ih _ hsome' m hm' hpred

/-- Starting with no binding for the author, every 'flair me' message by the
author other than the first one in the batch ends up ignored. -/
theorem classify_dup_ignored_flair (a : String) :
    ∀ (msgs : List Message) (st : ClassifyResult),
      dictLookup a st.flair_requests = none →
      ∀ m ∈ msgs, isRequestFor "flair me" a m = true →
        msgs.find? (isRequestFor "flair me" a) ≠ some m →
        m ∈ (msgs.foldl classifyStep st).ignored_messages := by
  intro msgs
  induction msgs with
  | nil => intro st _ m hm; cases hm
  | cons x rest ih =>
    intro st hnone m hm hpred hfind
    rw [List.foldl_cons]
    by_cases hx : isRequestFor "flair me" a x = true
    · have hfx : (x :: rest).find? (isRequestFor "flair me" a) = some x :=
        List.find?_cons_of_pos _ hx
      have hmx : m ≠ x := by
        intro he
        rw [he] at hfind
        exact hfind hfx
      have hm' : m ∈ rest := by
        rcases List.mem_cons.mp hm with he | h
        · exact absurd he hmx
        · exact h
      have hax : x.author = some a ∧ normSubject x = "flair me" := by
        simpa [isRequestFor] using hx
      have hstep : classifyStep st x =
          { st with flair_requests := st.flair_requests ++ [(a, x)] } := by
        simp [classifyStep, hax.1, hax.2, hnone]
      have hsome' : dictLookup a (classifyStep st x).flair_requests ≠ none := by
        rw [hstep]
        show dictLookup a (st.flair_requests ++ [(a, x)]) ≠ none
        rw [dictLookup_append_one, hnone, if_pos rfl]
        simp [Option.or]
      exact classify_fold_dup_flair a rest _ hsome' m hm' hpred
    · have hm' : m ∈ rest := by
        rcases List.mem_cons.mp hm with he | h
        · exact absurd (he ▸ hpred) hx
        · exact h
      have hfind' : rest.find? (isRequestFor "flair me" a) ≠ some m := by
        rw [List.find?_cons_of_neg _ hx] at hfind
        exact hfind
      have hnone' : dictLookup a (classifyStep st x).flair_requests = none := by
        rcases hau : x.author with _ | b
        · simpa [classifyStep, hau] using hnone
        · by_cases h1 : normSubject x = "flair me" ∧ dictLookup b st.flair_requests = none
          · have hab : a ≠ b := by
              intro he
              apply hx
              simp [isRequestFor, hau, he, h1.1]
            simp only [classifyStep, hau, if_pos h1]
            rw [dictLookup_append_one, hnone, if_neg hab]
            rfl
          · by_cases h2 : normSubject x = "change flair text" ∧
                dictLookup b st.flair_text_changes = none
            · simpa [classifyStep, hau, if_neg h1, if_pos h2] using hnone
            · simpa [classifyStep, hau, if_neg h1, if_neg h2] using hnone
      exact ih _ hnone' m hm' hpred hfind'

/-- Starting with no binding for the author, every 'change flair text'
message by the author other than the first one in the batch ends up
ignored. -/
theorem classify_dup_ignored_text (a : String) :
    ∀ (msgs : List Message) (st : ClassifyResult),
      dictLookup a st.flair_text_changes = none →
      ∀ m ∈ msgs, isRequestFor "change flair text" a m = true →
        msgs.find? (isRequestFor "change flair text" a) ≠ some m →
        m ∈ (msgs.foldl classifyStep st).ignored_messages := by
  intro msgs
  induction msgs with
  | nil => intro st _ m hm; cases hm
  | cons x rest ih =>
    intro st hnone m hm hpred hfind
    rw [List.foldl_cons]
    by_cases hx : isRequestFor "change flair text" a x = true
    · have hfx : (x :: rest).find? (isRequestFor "change flair text" a) = some x :=
        List.find?_cons_of_pos _ hx
      have hmx : m ≠ x := by
        intro he
        rw [he] at hfind
        exact hfind hfx
      have hm' : m ∈ rest := by
        rcases List.mem_cons.mp hm with he | h
        · exact absurd he hmx
        · exact h
      have hax : x.author = some a ∧ normSubject x = "change flair text" := by
        simpa [isRequestFor] using hx
      have h1x : ¬ (normSubject x = "flair me" ∧ dictLookup a st.flair_requests = none) := by
        intro h
        rw [hax.2] at h
        exact absurd h.1 (by decide)
      have hstep : classifyStep st x =
          { st with flair_text_changes := st.flair_text_changes ++ [(a, x)] } := by
        simp [classifyStep, hax.1, hax.2, h1x, hnone]
      have hsome' : dictLookup a (classifyStep st x).flair_text_changes ≠ none := by
        rw [hstep]
        show dictLookup a (st.flair_text_changes ++ [(a, x)]) ≠ none
        rw [dictLookup_append_one, hnone, if_pos rfl]
        simp [Option.or]
      exact classify_fold_dup_text a rest _ hsome' m hm' hpred
    · have hm' : m ∈ rest := by
        rcases List.mem_cons.mp hm with he | h
        · exact absurd (he ▸ hpred) hx
        · exact h
      have hfind' : rest.find? (isRequestFor "change flair text" a) ≠ some m := by
        rw [List.find?_cons_of_neg _ hx] at hfind
        exact hfind
      have hnone' : dictLookup a (classifyStep st x).flair_text_changes = none := by
        rcases hau : x.author with _ | b
        · simpa [classifyStep, hau] using hnone
        · by_cases h1 : normSubject x = "flair me" ∧ dictLookup b st.flair_requests = none
          · simpa [classifyStep, hau, if_pos h1] using hnone
          · by_cases h2 : normSubject x = "change flair text" ∧
                dictLookup b st.flair_text_changes = none
            · have hab : a ≠ b := by
                intro he
                apply hx
                simp [isRequestFor, hau, he, h2.1]
              simp only [classifyStep, hau, if_neg h1, if_pos h2]
              rw [dictLookup_append_one, hnone, if_neg hab]
              rfl
            · simpa [classifyStep, hau, if_neg h1, if_neg h2] using hnone
      exact ih _ hnone' m hm' hpred hfind'

/-- No binding for a key is the same as zero bindings with that key. -/
theorem dictLookup_none_iff_count_zero {β : Type} (a : String) :
    ∀ (l : List (String × β)),
      dictLookup a l = none ↔ l.countP (fun p => decide (p.1 = a)) = 0 := by
  intro l
  induction l with
  | nil => simp [dictLookup]
  | cons p tl ih =>
    rcases p with ⟨k, b⟩
    by_cases h : a = k
    · subst h
      simp [dictLookup, List.countP_cons]
    · simp [dictLookup, h, Ne.symm h, List.countP_cons, ih]

/-- Folding the classification keeps at most one `flair_requests` binding per
author. -/
theorem classify_fold_count_flair (a : String) :
    ∀ (msgs : List Message) (st : ClassifyResult),
      st.flair_requests.countP (fun p => decide (p.1 = a)) ≤ 1 →
      (msgs.foldl classifyStep st).flair_requests.countP (fun p => decide (p.1 = a)) ≤ 1 := by
  intro msgs
  induction msgs with
  | nil => intro st h; exact h
  | cons x rest ih =>
    intro st hc
    rw [List.foldl_cons]
    apply ih
    rcases hau : x.author with _ | b
    · simpa [classifyStep, hau] using hc
    · by_cases h1 : normSubject x = "flair me" ∧ dictLookup b st.flair_requests = none
      · simp only [classifyStep, hau, if_pos h1]
        rw [List.countP_append]
        by_cases hab : b = a
        · have h0 : st.flair_requests.countP (fun p => decide (p.1 = a)) = 0 :=
            (dictLookup_none_iff_count_zero a st.flair_requests).mp (hab ▸ h1.2)
          simp [h0, List.countP_cons, hab]
        · simp only [List.countP_cons, List.countP_nil]
          rw [if_neg (by simpa using hab)]
          simpa using hc
      · by_cases h2 : normSubject x = "change flair text" ∧
            dictLookup b st.flair_text_changes = none
        · simpa [classifyStep, hau, if_neg h1, if_pos h2] using hc
        · simpa [classifyStep, hau, if_neg h1, if_neg h2] using hc

/-- Folding the classification keeps at most one `flair_text_changes` binding
per author. -/
theorem classify_fold_count_text (a : String) :
    ∀ (msgs : List Message) (st : ClassifyResult),
      st.flair_text_changes.countP (fun p => decide (p.1 = a)) ≤ 1 →
      (msgs.foldl classifyStep st).flair_text_changes.countP (fun p => decide (p.1 = a)) ≤ 1 := by
  intro msgs
  induction msgs with
  | nil => intro st h; exact h
  | cons x rest ih =>
    intro st hc
    rw [List.foldl_cons]
    apply ih
    rcases hau : x.author with _ | b
    · simpa [classifyStep, hau] using hc
    · by_cases h1 : normSubject x = "flair me" ∧ dictLookup b st.flair_requests = none
      · simpa [classifyStep, hau, if_pos h1] using hc
      · by_cases h2 : normSubject x = "change flair text" ∧
            dictLookup b st.flair_text_changes = none
        · simp only [classifyStep, hau, if_neg h1, if_pos h2]
          rw [List.countP_append]
          by_cases hab : b = a
          · have h0 : st.flair_text_changes.countP (fun p => decide (p.1 = a)) = 0 :=
              (dictLookup_none_iff_count_zero a st.flair_text_changes).mp (hab ▸ h2.2)
            simp [h0, List.countP_cons, hab]
          · simp only [List.countP_cons, List.countP_nil]
            rw [if_neg (by simpa using hab)]
            simpa using hc
        · simpa [classifyStep, hau, if_neg h1, if_neg h2] using hc

/-- C8: For every batch and every requester: classification keys on the
trimmed, case-folded subject line; the `flair_requests` and
`flair_text_changes` maps bind the requester to exactly the FIRST matching
message of the batch (`dictLookup = find?`); each map holds at most one
binding per requester, so at most one request of each kind is honored; and
every later duplicate of either kind lands in `ignored_messages`, the set
that `check_pms` passes to the single batch `mark_read` call with no reply
(the classification produces no reply at all: `ClassifyResult` has no reply
field, and replies arise only in the two processing phases). -/
theorem flairbot_classification_spec (msgs : List Message) (a : String) :
    (dictLookup a (check_pms_classify msgs).flair_requests =
       msgs.find? (isRequestFor "flair me" a)) ∧
    (dictLookup a (check_pms_classify msgs).flair_text_changes =
       msgs.find? (isRequestFor "change flair text" a)) ∧
    ((check_pms_classify msgs).flair_requests.countP (fun p => decide (p.1 = a)) ≤ 1) ∧
    ((check_pms_classify msgs).flair_text_changes.countP (fun p => decide (p.1 = a)) ≤ 1) ∧
    (∀ m ∈ msgs, isRequestFor "flair me" a m = true →
       msgs.find? (isRequestFor "flair me" a) ≠ some m →
       m ∈ (check_pms_classify msgs).ignored_messages) ∧
    (∀ m ∈ msgs, isRequestFor "change flair text" a m = true →
       msgs.find? (isRequestFor "change flair text" a) ≠ some m →
       m ∈ (check_pms_classify msgs).ignored_messages) := by
  refine ⟨?_, ?_, ?_, ?_, ?_, ?_⟩
  · rw [check_pms_classify, classify_fold_lookup_flair]
    simp [dictLookup, Option.none_or]
  · rw [check_pms_classify, classify_fold_lookup_text]
    simp [dictLookup, Option.none_or]
  · exact classify_fold_count_flair a msgs ⟨[], [], []⟩ (by simp)
  · exact classify_fold_count_text a msgs ⟨[], [], []⟩ (by simp)
  · exact classify_dup_ignored_flair a msgs ⟨[], [], []⟩ rfl
  · exact classify_dup_ignored_text a msgs ⟨[], [], []⟩ rfl

/-- C8 witness: two 'flair me' messages by the same author in one batch —
the subject matching is trim+casefold — where only the first is honored and
the duplicate is ignored (batch-marked read, no reply). -/
theorem flairbot_classification_spec_witness :
    dictLookup "bob"
        (check_pms_classify
          [⟨some "bob", "Flair Me", "first"⟩, ⟨some "bob", " flair me ", "second"⟩]).flair_requests =
      some ⟨some "bob", "Flair Me", "first"⟩ ∧
    (⟨some "bob", " flair me ", "second"⟩ : Message) ∈
      (check_pms_classify
        [⟨some "bob", "Flair Me", "first"⟩, ⟨some "bob", " flair me ", "second"⟩]).ignored_messages := by
  have h := flairbot_classification_spec
    [⟨some "bob", "Flair Me", "first"⟩, ⟨some "bob", " flair me ", "second"⟩] "bob"
  constructor
  · rw [h.1]
    decide
  · exact h.2.2.2.2.1 ⟨some "bob", " flair me ", "second"⟩ (by decide) (by decide) (by decide)
